import Mathlib

/-
Verification of the ZooKeeper key-value adapter
(`core/src/services/zookeeper/backend.rs`): the connection lifecycle
(`ZkAdapter::get_connection`), the recursive ancestor-creation algorithm
(`ZkAdapter::create_nested_node`), and the three adapter operations
(`ZkAdapter::get` / `set` / `delete`).

Strings are embedded as lists of characters; the `substring` crate's
`Substring::substring(a, b)` and Rust's `str::find` / `str::rfind` /
`str::strip_suffix` are embedded below over `List Char`.  The ZooKeeper
client (`zookeeper_client::Client`) is an external collaborator; the adapter
code is parameterized over it (a `Client` record of node operations), and a
reference store model (`realClient`) instantiates it with the hierarchical
semantics the spec describes for the remote store.  The loops of
`create_nested_node` are embedded with an explicit recursion budget (`fuel`);
the budget chosen in `create_nested_node` is proved sufficient (no `fuelOut`
result), and the `rfind('/').unwrap()` panic is modelled as an explicit
`panic` outcome.
-/

set_option autoImplicit false

namespace Zk

/-- Rust string slices, embedded as lists of characters. -/
abbrev Str := List Char

/-- Byte payloads (`Vec<u8>` / `&[u8]`), embedded as lists of naturals. -/
abbrev Value := List Nat

/-- View a Lean string literal as an embedded Rust string. -/
def str (s : String) : Str := s.data

/-- `substring::Substring::substring(s, a, b)`: the characters of `s` from
index `a` (inclusive) to `b` (exclusive), clamped to the string. -/
def substring (s : Str) (a b : Nat) : Str := (s.take b).drop a

/-- `str::find(c)`: index of the first occurrence of `c`, if any. -/
def findChar : Str → Char → Option Nat
  | [], _ => none
  | a :: as, c => if a = c then some 0 else (findChar as c).map (· + 1)

/-- `str::rfind(c)`: index of the last occurrence of `c`, if any. -/
def rfindChar : Str → Char → Option Nat
  | [], _ => none
  | a :: as, c =>
    match rfindChar as c with
    | some i => some (i + 1)
    | none => if a = c then some 0 else none

/-- `path.strip_suffix('/').unwrap_or(path)`: remove a single trailing
slash when present. -/
def stripSuffixSlash (s : Str) : Str :=
  if s.getLast? = some '/' then s.dropLast else s

/-- `path.starts_with('/')`. -/
def startsWithSlash (s : Str) : Bool :=
  match s with
  | [] => false
  | a :: _ => a == '/'

/-- The root path `"/"`. -/
def rootStr : Str := ['/']

def dropLeadSlashes (s : Str) : Str := s.dropWhile (fun ch => ch == '/')

def dropTrailSlashes (s : Str) : Str :=
  (s.reverse.dropWhile (fun ch => ch == '/')).reverse

/-- Modelled from the spec: `build_rooted_abs_path` lives in the
path-normalization utilities (`core/src/raw`), outside the file under
verification.  Per the spec it "turns a caller-supplied relative key into an
absolute, slash-delimited, no-trailing-slash path".  We model it as: drop
leading and trailing slashes from the key; the empty key maps to the root;
otherwise prepend the root. -/
def build_rooted_abs_path (root p : Str) : Str :=
  let q := dropTrailSlashes (dropLeadSlashes p)
  if q.isEmpty then root else root ++ q

/-- `zookeeper_client::Error`, narrowed to the variants the adapter
pattern-matches on (`NoNode`) plus representatives of every other kind. -/
inductive ZkError where
  | noNode
  | nodeExists
  | notEmpty
  | other (code : Nat)
deriving DecidableEq

/-- The adapter's error type: every failure the adapter surfaces is
`Error::new(ErrorKind::Unexpected, "error from zookeeper").set_source(e)`,
carrying the underlying client failure. -/
inductive AErr where
  | unexpected (cause : ZkError)
deriving DecidableEq

/-- The node-operation boundary of the remote store client, over an abstract
client/store state `σ`.  Each operation returns the next state and a
discriminated result, mirroring `zk::Client::{create, get_data, set_data,
delete}`. -/
structure Client (σ : Type) where
  create : σ → Str → Value → σ × Except ZkError Unit
  getData : σ → Str → σ × Except ZkError Value
  setData : σ → Str → Value → σ × Except ZkError Unit
  del : σ → Str → σ × Except ZkError Unit

/-- Outcome of running an embedded loop: a normal result, the explicit
`rfind('/').unwrap()` panic, or exhaustion of the recursion budget (an
artifact of the embedding, proved unreachable for the budgets used). -/
inductive RunOut (α : Type) where
  | panic
  | fuelOut
  | out (a : α)

/-- Phase 1 of `ZkAdapter::create_nested_node` (the retreat loop, lines
179-207): attempt to create the prefix `path[0..rend]` (the root `"/"` when
the prefix is empty); on success return the boundary `rend`; on `NoNode`
retreat `rend` to the last `'/'` strictly inside the prefix (panicking, like
`unwrap`, when there is none); on any other failure abort with an
`Unexpected` error. -/
def phase1 {σ : Type} (c : Client σ) (v : Value) (path : Str) :
    Nat → σ → Nat → RunOut (σ × Except AErr Nat)
  | 0, _, _ => .fuelOut
  | fuel + 1, s, rend =>
    match c.create s
        (if (substring path 0 rend).isEmpty then rootStr else substring path 0 rend) v with
    | (s', .ok _) => .out (s', .ok rend)
    | (s', .error ZkError.noNode) =>
      match rfindChar (substring path 0 rend) '/' with
      | some i => phase1 c v path fuel s' i
      | none => .panic
    | (s', .error e) => .out (s', .error (.unexpected e))

/-- The inner loop of Phase 2 of `ZkAdapter::create_nested_node` (lines
211-237): create the prefix `path[0..rend]`; if `rend` reached the full
length return success, otherwise advance `rend` to the next `'/'` (or the end
of the path) and repeat; any creation failure aborts with an `Unexpected`
error. -/
def phase2loop {σ : Type} (c : Client σ) (v : Value) (path : Str) :
    Nat → σ → Nat → RunOut (σ × Except AErr Unit)
  | 0, _, _ => .fuelOut
  | fuel + 1, s, rend =>
    match c.create s (substring path 0 rend) v with
    | (s', .ok _) =>
      if rend = path.length then .out (s', .ok ())
      else
        match findChar (substring path (rend + 1) path.length) '/' with
        | none => phase2loop c v path fuel s' path.length
        | some len => phase2loop c v path fuel s' (len + rend + 1)
    | (s', .error e) => .out (s', .error (.unexpected e))

/-- Phase 2 of `ZkAdapter::create_nested_node` (lines 208-240): scan past the
Phase-1 boundary for the next `'/'`; when one exists, run the fill-down loop
from that boundary; when none exists, return success immediately (this is the
source's behavior as written). -/
def phase2 {σ : Type} (c : Client σ) (v : Value) (path : Str) (fuel : Nat)
    (s : σ) (rend : Nat) : RunOut (σ × Except AErr Unit) :=
  match findChar (substring path (rend + 1) path.length) '/' with
  | some len => phase2loop c v path fuel s (len + rend + 1)
  | none => .out (s, .ok ())

/-- The body of `ZkAdapter::create_nested_node` once the path has been made
absolute: run the Phase-1 retreat starting from the full path, propagate its
error (the `?` on the Phase-1 loop), then run Phase 2 from the Phase-1
boundary. -/
def cnnBody {σ : Type} (c : Client σ) (s : σ) (path : Str) (v : Value) :
    RunOut (σ × Except AErr Unit) :=
  match phase1 c v path (path.length + 1) s path.length with
  | .panic => .panic
  | .fuelOut => .fuelOut
  | .out (s', .error e) => .out (s', .error e)
  | .out (s', .ok rend) => phase2 c v path (path.length + 2) s' rend

/-- `ZkAdapter::create_nested_node` (lines 174-241): rewrite a non-absolute
input into a rooted path, then probe and fill (`cnnBody`). -/
def create_nested_node {σ : Type} (c : Client σ) (s : σ) (path0 : Str)
    (v : Value) : RunOut (σ × Except AErr Unit) :=
  let path := if startsWithSlash path0 then path0
              else build_rooted_abs_path rootStr (stripSuffixSlash path0)
  cnnBody c s path v

/-- `ZkAdapter::get` (lines 259-268): canonicalize the key, read node data;
`NoNode` maps to `none` (absent); any other failure maps to `Unexpected`. -/
def ZkAdapter.get {σ : Type} (c : Client σ) (s : σ) (key : Str) :
    σ × Except AErr (Option Value) :=
  let path := build_rooted_abs_path rootStr (stripSuffixSlash key)
  match c.getData s path with
  | (s', .ok data) => (s', .ok (some data))
  | (s', .error ZkError.noNode) => (s', .ok none)
  | (s', .error e) => (s', .error (.unexpected e))

/-- `ZkAdapter::set` (lines 270-286): canonicalize the key, attempt a direct
`set_data`; on `NoNode` delegate to `create_nested_node`; any other failure
maps to `Unexpected`. -/
def ZkAdapter.set {σ : Type} (c : Client σ) (s : σ) (key : Str) (v : Value) :
    RunOut (σ × Except AErr Unit) :=
  let path := build_rooted_abs_path rootStr (stripSuffixSlash key)
  match c.setData s path v with
  | (s', .ok _) => .out (s', .ok ())
  | (s', .error ZkError.noNode) => create_nested_node c s' path v
  | (s', .error e) => .out (s', .error (.unexpected e))

/-- `ZkAdapter::delete` (lines 288-297): canonicalize the key, attempt
deletion; `NoNode` is success (idempotent delete); any other failure maps to
`Unexpected`. -/
def ZkAdapter.delete {σ : Type} (c : Client σ) (s : σ) (key : Str) :
    σ × Except AErr Unit :=
  let path := build_rooted_abs_path rootStr (stripSuffixSlash key)
  match c.del s path with
  | (s', .ok _) => (s', .ok ())
  | (s', .error ZkError.noNode) => (s', .ok ())
  | (s', .error e) => (s', .error (.unexpected e))

/-- Reference model of the remote store: nodes as an association list from
absolute paths to payloads, plus a trace of every `create` call issued
(earliest first), used to state call-sequence properties. -/
structure Store where
  nodes : List (Str × Value)
  creates : List Str
deriving DecidableEq

/-- The parent path of an absolute path: everything before the last `'/'`,
or the root when the last `'/'` is the first character. -/
def parentPath (p : Str) : Str :=
  match rfindChar p '/' with
  | some 0 => rootStr
  | some i => p.take i
  | none => []

/-- Modelled from the spec: a node exists when it is the root (which always
pre-exists in the remote store) or is present in the store. -/
def hasNode (st : Store) (p : Str) : Bool :=
  p == rootStr || st.nodes.any (fun en => en.1 == p)

def lookupNode (st : Store) (p : Str) : Option Value :=
  (st.nodes.find? (fun en => en.1 == p)).map (fun en => en.2)

/-- Modelled from the spec: `create` fails with `NodeExists` when the node
already exists, with `NoNode` when its parent is missing (the store "refuses
to create a node if its parent is absent"), and otherwise adds the node. -/
def storeCreate (st : Store) (p : Str) (v : Value) : Store × Except ZkError Unit :=
  let st' : Store := { st with creates := st.creates ++ [p] }
  if hasNode st' p then (st', .error .nodeExists)
  else if hasNode st' (parentPath p) then
    ({ st' with nodes := st'.nodes ++ [(p, v)] }, .ok ())
  else (st', .error .noNode)

/-- Modelled from the spec: `get_data` fails with `NoNode` when the node is
absent. -/
def storeGetData (st : Store) (p : Str) : Store × Except ZkError Value :=
  match lookupNode st p with
  | some v => (st, .ok v)
  | none => (st, .error .noNode)

/-- Modelled from the spec: `set_data` updates in place, failing with
`NoNode` when the node is absent. -/
def storeSetData (st : Store) (p : Str) (v : Value) : Store × Except ZkError Unit :=
  if st.nodes.any (fun en => en.1 == p) then
    ({ st with nodes := st.nodes.map (fun en => if en.1 == p then (p, v) else en) }, .ok ())
  else (st, .error .noNode)

/-- Modelled from the spec: `delete` removes the node, failing with `NoNode`
when it is absent. -/
def storeDelete (st : Store) (p : Str) : Store × Except ZkError Unit :=
  if st.nodes.any (fun en => en.1 == p) then
    ({ st with nodes := st.nodes.filter (fun en => en.1 != p) }, .ok ())
  else (st, .error .noNode)

/-- The reference client over the store model. -/
def realClient : Client Store :=
  ⟨storeCreate, storeGetData, storeSetData, storeDelete⟩

/-- An adversarial client whose every operation fails with a fixed error,
used to settle the "any other failure" clauses. -/
def errClient (e : ZkError) : Client Unit :=
  ⟨fun s _ _ => (s, .error e), fun s _ => (s, .error e),
   fun s _ _ => (s, .error e), fun s _ => (s, .error e)⟩

/-- The empty namespace: only the (implicit) root exists. -/
def emptyStore : Store := ⟨[], []⟩

/-- Connection or authentication round trips performed by
`ZkAdapter::get_connection`. -/
inductive ConnEvent where
  | connect
  | authCall
deriving DecidableEq

/-- The outcomes the network would give to a connection attempt:
`zk::Client::connect` (clients numbered by `Nat`) and `client.auth`. -/
structure ConnEnv where
  connectResult : Except ZkError Nat
  authResult : Except ZkError Unit

/-- `ZkAdapter::get_connection` (lines 155-172): return the cached client
when present; otherwise connect, authenticate when a credential token is
configured (a failure propagates as `Unexpected` and nothing is cached),
cache the client and return it.  The result records the new cache, the
returned value, and the round trips performed. -/
def get_connection (authTok : Value) (env : ConnEnv) (cache : Option Nat) :
    Option Nat × Except AErr Nat × List ConnEvent :=
  match cache with
  | some client => (some client, .ok client, [])
  | none =>
    match env.connectResult with
    | .ok client =>
      if authTok.isEmpty then (some client, .ok client, [.connect])
      else
        match env.authResult with
        | .ok _ => (some client, .ok client, [.connect, .authCall])
        | .error e => (none, .error (.unexpected e), [.connect, .authCall])
    | .error e => (none, .error (.unexpected e), [.connect])

/-- C1: the source, run on the failing input: `create_nested_node` on
`"/foo/bar"` against a namespace holding only the root reports success after
creating only `/foo`; the node at the full path `/foo/bar` is never created,
contradicting the claim that success is returned only once the leaf exists.
(Phase 1 succeeds at the boundary of `/foo`; no further `'/'` remains past
it, and the outer Phase-2 match returns success immediately instead of
taking the end of the path as the next boundary.) -/
theorem create_nested_node_drops_leaf :
    ∃ st1 : Store,
      create_nested_node realClient emptyStore (str "/foo/bar") [1, 2, 3]
        = .out (st1, .ok ())
      ∧ hasNode st1 (str "/foo") = true
      ∧ hasNode st1 (str "/foo/bar") = false :=
  ⟨⟨[(str "/foo", [1, 2, 3])], [str "/foo/bar", str "/foo"]⟩, rfl, rfl, rfl⟩

/-- C2: the source, run on the failing scenario: on the empty namespace,
`set("foo/bar", [1,2,3])` reports success but creates only `/foo`, never
`/foo/bar`; the following `get("foo/bar")` returns absent instead of
`[1,2,3]`. -/
theorem set_get_scenario_bug :
    ∃ st1 : Store,
      ZkAdapter.set realClient emptyStore (str "foo/bar") [1, 2, 3]
        = .out (st1, .ok ())
      ∧ hasNode st1 (str "/foo") = true
      ∧ hasNode st1 (str "/foo/bar") = false
      ∧ (ZkAdapter.get realClient st1 (str "foo/bar")).2 = .ok none :=
  ⟨⟨[(str "/foo", [1, 2, 3])], [str "/foo/bar", str "/foo"]⟩, rfl, rfl, rfl, rfl⟩

/-- C3: the source, run on a failing input for the round-trip law: on the
empty namespace, `set("a/b", [7])` reports success, but the following
`get("a/b")` returns absent rather than `[7]` — the leaf node was never
created. -/
theorem set_get_roundtrip_fails :
    ∃ st1 : Store,
      ZkAdapter.set realClient emptyStore (str "a/b") [7] = .out (st1, .ok ())
      ∧ (ZkAdapter.get realClient st1 (str "a/b")).2 = .ok none :=
  ⟨⟨[(str "/a", [7])], [str "/a/b", str "/a"]⟩, rfl, rfl⟩

/-- C4: starting from the empty namespace, `set("/a/b/c", v)` succeeds and
afterwards `/a`, `/a/b` and `/a/b/c` all exist, with `/a/b/c` holding `v`. -/
theorem set_materializes_ancestors (v : Value) :
    ∃ st1 : Store,
      ZkAdapter.set realClient emptyStore (str "/a/b/c") v = .out (st1, .ok ())
      ∧ hasNode st1 (str "/a") = true
      ∧ hasNode st1 (str "/a/b") = true
      ∧ lookupNode st1 (str "/a/b/c") = some v :=
  ⟨⟨[(str "/a", v), (str "/a/b", v), (str "/a/b/c", v)],
    [str "/a/b/c", str "/a/b", str "/a", str "/a/b", str "/a/b/c"]⟩,
   rfl, rfl, rfl, rfl⟩

/-- Against the reference store, a delete never surfaces an error: either the
node is removed or the `NoNode` failure is swallowed as success. -/
theorem delete_always_ok (st : Store) (k : Str) :
    (ZkAdapter.delete realClient st k).2 = .ok () := by
  unfold ZkAdapter.delete realClient storeDelete
  by_cases h : st.nodes.any
      (fun en => en.1 == build_rooted_abs_path rootStr (stripSuffixSlash k)) <;>
    simp [h]

/-- C7: a `get` on a key whose canonical path has no node in the store
returns the absent result (`none`), not an error; and any remote failure
other than `NoNode` makes `get` return an `Unexpected` error carrying the
underlying cause. -/
theorem get_spec :
    (∀ (st : Store) (k : Str),
      lookupNode st (build_rooted_abs_path rootStr (stripSuffixSlash k)) = none →
      ZkAdapter.get realClient st k = (st, .ok none))
    ∧ ∀ (e : ZkError) (k : Str), e ≠ ZkError.noNode →
        ZkAdapter.get (errClient e) () k = ((), .error (.unexpected e)) := by
  constructor
  · intro st k h
    simp only [ZkAdapter.get, realClient, storeGetData, h]
  · intro e k hne
    cases e with
    | noNode => exact absurd rfl hne
    | nodeExists => rfl
    | notEmpty => rfl
    | other code => rfl

/-- Witness for C7 at concrete inputs: a never-written key on the empty
namespace reads as absent, and a `NodeExists` failure from the store surfaces
as `Unexpected`. -/
theorem get_spec_witness :
    ZkAdapter.get realClient emptyStore (str "nope") = (emptyStore, .ok none)
    ∧ ZkAdapter.get (errClient (ZkError.other 9)) () (str "k")
        = ((), .error (.unexpected (ZkError.other 9))) :=
  ⟨get_spec.1 emptyStore (str "nope") rfl,
   get_spec.2 (ZkError.other 9) (str "k") (by decide)⟩

/-- C8: deleting a key whose canonical path has no node succeeds without
error; against the reference store a delete always succeeds, so deleting the
same key twice in a row both times returns success; and any remote failure
other than `NoNode` makes `delete` return an `Unexpected` error. -/
theorem delete_spec :
    (∀ (st : Store) (k : Str),
      st.nodes.any
          (fun en => en.1 == build_rooted_abs_path rootStr (stripSuffixSlash k)) = false →
      ZkAdapter.delete realClient st k = (st, .ok ()))
    ∧ (∀ (st : Store) (k : Str),
        (ZkAdapter.delete realClient st k).2 = .ok ()
        ∧ (ZkAdapter.delete realClient (ZkAdapter.delete realClient st k).1 k).2
            = .ok ())
    ∧ ∀ (e : ZkError) (k : Str), e ≠ ZkError.noNode →
        ZkAdapter.delete (errClient e) () k = ((), .error (.unexpected e)) := by
  refine ⟨?_, ?_, ?_⟩
  · intro st k h
    simp only [ZkAdapter.delete, realClient, storeDelete, h]
    simp
  · intro st k
    exact ⟨delete_always_ok st k, delete_always_ok _ k⟩
  · intro e k hne
    cases e with
    | noNode => exact absurd rfl hne
    | nodeExists => rfl
    | notEmpty => rfl
    | other code => rfl

/-- Witness for C8 at concrete inputs: deleting an absent key on the empty
namespace succeeds, twice in a row both succeed, and a `NotEmpty` failure
surfaces as `Unexpected`. -/
theorem delete_spec_witness :
    ZkAdapter.delete realClient emptyStore (str "gone") = (emptyStore, .ok ())
    ∧ (ZkAdapter.delete realClient emptyStore (str "gone")).2 = .ok ()
    ∧ (ZkAdapter.delete realClient
        (ZkAdapter.delete realClient emptyStore (str "gone")).1 (str "gone")).2
        = .ok ()
    ∧ ZkAdapter.delete (errClient ZkError.notEmpty) () (str "k")
        = ((), .error (.unexpected ZkError.notEmpty)) :=
  ⟨delete_spec.1 emptyStore (str "gone") rfl,
   (delete_spec.2.1 emptyStore (str "gone")).1,
   (delete_spec.2.1 emptyStore (str "gone")).2,
   delete_spec.2.2 ZkError.notEmpty (str "k") (by decide)⟩

/-- C6: `get_connection` returns the cached handle with no round trip when
one is cached; a newly connected handle is cached only after authentication
(when a credential token is configured) has succeeded, an auth failure
propagating as an error with the cache left unset; consequently two
sequential calls starting from an empty cache perform exactly one
connect-plus-auth round trip, the second call touching the network not at
all. -/
theorem get_connection_spec :
    (∀ (tok : Value) (env : ConnEnv) (cl : Nat),
      get_connection tok env (some cl) = (some cl, .ok cl, []))
    ∧ (∀ (tok : Value) (env : ConnEnv) (cl : Nat) (e : ZkError),
        tok ≠ [] → env.connectResult = .ok cl → env.authResult = .error e →
        get_connection tok env none
          = (none, .error (.unexpected e), [.connect, .authCall]))
    ∧ ∀ (tok : Value) (env env' : ConnEnv) (cl : Nat),
        env.connectResult = .ok cl → (tok = [] ∨ env.authResult = .ok ()) →
        (get_connection tok env none).1 = some cl
        ∧ ((get_connection tok env none).2.2 = [.connect]
            ∨ (get_connection tok env none).2.2 = [.connect, .authCall])
        ∧ get_connection tok env' (get_connection tok env none).1
            = (some cl, .ok cl, []) := by
  refine ⟨fun tok env cl => rfl, ?_, ?_⟩
  · intro tok env cl e htok hconn hauth
    cases tok with
    | nil => exact absurd rfl htok
    | cons b bs => simp [get_connection, hconn, hauth]
  · intro tok env env' cl hconn hok
    rcases hok with htok | hauth
    · subst htok
      simp [get_connection, hconn]
    · cases tok with
      | nil => simp [get_connection, hconn]
      | cons b bs => simp [get_connection, hconn, hauth]

/-- Witness for C6 at concrete inputs: an auth failure surfaces as
`Unexpected` with nothing cached, and with credentials `[1]` plus a
successful connect and auth the handle is cached so that a second call (under
any network behavior) is served from the cache with no round trips. -/
theorem get_connection_spec_witness :
    get_connection [1] ⟨Except.ok 7, Except.error (ZkError.other 3)⟩ none
      = (none, .error (.unexpected (ZkError.other 3)), [.connect, .authCall])
    ∧ (get_connection [1] ⟨Except.ok 7, Except.ok ()⟩ none).1 = some 7
    ∧ get_connection [1] ⟨Except.error ZkError.notEmpty, Except.error ZkError.notEmpty⟩
        (get_connection [1] ⟨Except.ok 7, Except.ok ()⟩ none).1
        = (some 7, .ok 7, []) :=
  ⟨get_connection_spec.2.1 [1] ⟨Except.ok 7, Except.error (ZkError.other 3)⟩ 7
      (ZkError.other 3) (by decide) rfl rfl,
   (get_connection_spec.2.2 [1] ⟨Except.ok 7, Except.ok ()⟩
      ⟨Except.error ZkError.notEmpty, Except.error ZkError.notEmpty⟩ 7 rfl
      (Or.inr rfl)).1,
   (get_connection_spec.2.2 [1] ⟨Except.ok 7, Except.ok ()⟩
      ⟨Except.error ZkError.notEmpty, Except.error ZkError.notEmpty⟩ 7 rfl
      (Or.inr rfl)).2.2⟩

/-- Dropping leading slashes from `m ++ "/"` either appends the slash to the
result for `m`, or both results are empty. -/
theorem dropLead_append_slash (m : Str) :
    dropLeadSlashes (m ++ ['/']) = dropLeadSlashes m ++ ['/']
    ∨ (dropLeadSlashes (m ++ ['/']) = [] ∧ dropLeadSlashes m = []) := by
  induction m with
  | nil => exact Or.inr ⟨rfl, rfl⟩
  | cons a m ih =>
    by_cases h : a = '/'
    · subst h
      simpa [dropLeadSlashes, List.dropWhile_cons] using ih
    · left
      simp [dropLeadSlashes, List.dropWhile_cons, h]

/-- A trailing slash is swallowed by the trailing-slash trim. -/
theorem dropTrail_append_slash (x : Str) :
    dropTrailSlashes (x ++ ['/']) = dropTrailSlashes x := by
  simp [dropTrailSlashes, List.dropWhile_cons]

/-- The canonicalizer ignores a trailing slash on its input. -/
theorem build_concat_slash (m : Str) :
    build_rooted_abs_path rootStr (m ++ ['/']) = build_rooted_abs_path rootStr m := by
  unfold build_rooted_abs_path
  rcases dropLead_append_slash m with h | ⟨h1, h2⟩
  · rw [h, dropTrail_append_slash]
  · rw [h1, h2]

/-- `strip_suffix('/')` removes exactly the trailing slash just appended. -/
theorem strip_concat (k : Str) : stripSuffixSlash (k ++ ['/']) = k := by
  simp [stripSuffixSlash, List.getLast?_concat, List.dropLast_concat]

/-- Pre-stripping one trailing slash does not change the canonical path. -/
theorem canonical_strip (k : Str) :
    build_rooted_abs_path rootStr (stripSuffixSlash k)
      = build_rooted_abs_path rootStr k := by
  by_cases h : k.getLast? = some '/'
  · have hk : k.dropLast ++ ['/'] = k :=
      List.dropLast_append_getLast? '/' (Option.mem_def.mpr h)
    conv_rhs => rw [← hk]
    rw [build_concat_slash]
    simp [stripSuffixSlash, h]
  · simp [stripSuffixSlash, h]

/-- C9: each of `get`, `set` and `delete` strips one trailing `'/'` from the
key before canonicalizing it; the key `k` and the key `k ++ "/"` canonicalize
to the same path, so the three operations behave identically on both,
whatever the client and store state. -/
theorem trailing_slash_equiv : ∀ k : Str,
    stripSuffixSlash (k ++ ['/']) = k
    ∧ build_rooted_abs_path rootStr (stripSuffixSlash (k ++ ['/']))
        = build_rooted_abs_path rootStr (stripSuffixSlash k)
    ∧ ∀ (σ : Type) (c : Client σ) (s : σ) (v : Value),
        ZkAdapter.get c s (k ++ ['/']) = ZkAdapter.get c s k
        ∧ ZkAdapter.set c s (k ++ ['/']) v = ZkAdapter.set c s k v
        ∧ ZkAdapter.delete c s (k ++ ['/']) = ZkAdapter.delete c s k := by
  intro k
  have hcanon : build_rooted_abs_path rootStr (stripSuffixSlash (k ++ ['/']))
      = build_rooted_abs_path rootStr (stripSuffixSlash k) := by
    rw [strip_concat, canonical_strip]
  refine ⟨strip_concat k, hcanon, ?_⟩
  intro σ c s v
  refine ⟨?_, ?_, ?_⟩ <;> simp only [ZkAdapter.get, ZkAdapter.set, ZkAdapter.delete, hcanon]

/-- An index returned by `rfind` is inside the string. -/
theorem rfindChar_lt {s : Str} {c : Char} : ∀ {i : Nat},
    rfindChar s c = some i → i < s.length := by
  induction s with
  | nil => intro i h; simp [rfindChar] at h
  | cons a t ih =>
    intro i h
    simp only [rfindChar] at h
    rcases ht : rfindChar t c with _ | j <;> rw [ht] at h
    · by_cases hac : a = c
      · simp [hac] at h
        simp [← h]
      · simp [hac] at h
    · simp at h
      have := ih ht
      simp [← h, List.length_cons]
      omega

/-- The index returned by `rfind` carries the sought character. -/
theorem rfindChar_get {s : Str} {c : Char} : ∀ {i : Nat},
    rfindChar s c = some i → s.get? i = some c := by
  induction s with
  | nil => intro i h; simp [rfindChar] at h
  | cons a t ih =>
    intro i h
    simp only [rfindChar] at h
    rcases ht : rfindChar t c with _ | j <;> rw [ht] at h
    · by_cases hac : a = c
      · simp [hac] at h
        simp [← h, hac]
      · simp [hac] at h
    · simp at h
      rw [← h]
      simpa using ih ht

/-- When `rfind` finds nothing, the character is absent. -/
theorem rfindChar_eq_none {s : Str} {c : Char} (h : rfindChar s c = none) :
    c ∉ s := by
  induction s with
  | nil => simp
  | cons a t ih =>
    simp only [rfindChar] at h
    rcases ht : rfindChar t c with _ | j <;> rw [ht] at h
    · by_cases hac : a = c
      · simp [hac] at h
      · intro hm
        rcases List.mem_cons.mp hm with h1 | h2
        · exact hac h1.symm
        · exact ih ht h2
    · simp at h

/-- No occurrence of the character lies strictly after the index `rfind`
returns: it is the last one. -/
theorem rfindChar_after {s : Str} {c : Char} : ∀ {i : Nat},
    rfindChar s c = some i → ∀ j, i < j → s.get? j ≠ some c := by
  induction s with
  | nil => intro i h; simp [rfindChar] at h
  | cons a t ih =>
    intro i h j hj
    simp only [rfindChar] at h
    rcases ht : rfindChar t c with _ | j0 <;> rw [ht] at h
    · by_cases hac : a = c
      · simp [hac] at h
        cases j with
        | zero => omega
        | succ jj =>
          simp only [List.get?_cons_succ]
          intro hg
          exact rfindChar_eq_none ht (List.get?_mem hg)
      · simp [hac] at h
    · simp at h
      cases j with
      | zero => omega
      | succ jj =>
        simp only [List.get?_cons_succ]
        exact ih ht jj (by omega)

/-- A character that occurs in the string is found by `rfind`. -/
theorem rfindChar_mem {s : Str} {c : Char} (h : c ∈ s) :
    ∃ i, rfindChar s c = some i := by
  rcases hr : rfindChar s c with _ | i
  · exact absurd h (rfindChar_eq_none hr)
  · exact ⟨i, rfl⟩

/-- C5: in Phase 1 of `create_nested_node`, when the create attempt on the
prefix `path[0..cut]` fails with "no such node", a last `'/'` strictly before
the cut exists (for the absolute paths Phase 1 runs on), and the loop
continues with the cut moved exactly to the index of that last `'/'` — the
next attempted prefix ends there; any failure of a different kind makes the
whole call return immediately with an `Unexpected` error carrying the
underlying cause, the state being exactly the one after that single create
attempt (no further attempts). -/
theorem phase1_step {σ : Type} (c : Client σ) (v : Value) (path : Str)
    (fuel rend : Nat) (s s' : σ) :
    (c.create s
        (if (substring path 0 rend).isEmpty then rootStr else substring path 0 rend) v
        = (s', .error ZkError.noNode) →
      (startsWithSlash path = true → 0 < rend →
        ∃ i, rfindChar (substring path 0 rend) '/' = some i)
      ∧ ∀ i, rfindChar (substring path 0 rend) '/' = some i →
          phase1 c v path (fuel + 1) s rend = phase1 c v path fuel s' i
          ∧ i < rend
          ∧ (substring path 0 rend).get? i = some '/'
          ∧ ∀ j, i < j → (substring path 0 rend).get? j ≠ some '/')
    ∧ ∀ e : ZkError, e ≠ ZkError.noNode →
        c.create s
          (if (substring path 0 rend).isEmpty then rootStr else substring path 0 rend) v
          = (s', .error e) →
        phase1 c v path (fuel + 1) s rend = .out (s', .error (.unexpected e)) := by
  constructor
  · intro hc
    constructor
    · intro hs hr
      apply rfindChar_mem
      cases path with
      | nil => simp [startsWithSlash] at hs
      | cons a t =>
        have ha : a = '/' := by simpa [startsWithSlash] using hs
        subst ha
        cases rend with
        | zero => omega
        | succ r => simp [substring]
    · intro i hi
      refine ⟨?_, ?_, rfindChar_get hi, rfindChar_after hi⟩
      · simp only [phase1, hc, hi]
      · have h1 : i < (substring path 0 rend).length := rfindChar_lt hi
        have h2 : (substring path 0 rend).length ≤ rend := by
          simp [substring, List.length_take]
        omega
  · intro e hne hc
    cases e with
    | noNode => exact absurd rfl hne
    | nodeExists => simp only [phase1, hc]
    | notEmpty => simp only [phase1, hc]
    | other code => simp only [phase1, hc]

/-- Witness for C5 at concrete inputs: on `"/a/b"` with the empty namespace,
the create of the full path fails with "no such node" and the loop retreats
to cut `2` (the last `'/'` strictly before cut `4`); and a `NodeExists`
failure makes Phase 1 return the `Unexpected` error at once. -/
theorem phase1_step_witness :
    phase1 realClient [5] (str "/a/b") 4 emptyStore 4
      = phase1 realClient [5] (str "/a/b") 3 ⟨[], [str "/a/b"]⟩ 2
    ∧ phase1 (errClient ZkError.nodeExists) [5] (str "/a/b") 1 () 4
      = .out ((), .error (.unexpected ZkError.nodeExists)) :=
  ⟨(((phase1_step realClient [5] (str "/a/b") 3 4 emptyStore
        ⟨[], [str "/a/b"]⟩).1 rfl).2 2 rfl).1,
   (phase1_step (errClient ZkError.nodeExists) [5] (str "/a/b") 0 4 () ()).2
      ZkError.nodeExists (by decide) rfl⟩

/-- An index returned by `find` is inside the string. -/
theorem findChar_lt {s : Str} {c : Char} : ∀ {i : Nat},
    findChar s c = some i → i < s.length := by
  induction s with
  | nil => intro i h; simp [findChar] at h
  | cons a t ih =>
    intro i h
    simp only [findChar] at h
    by_cases hac : a = c
    · simp [hac] at h
      simp [← h]
    · simp [hac] at h
      rcases hmap : findChar t c with _ | j <;> rw [hmap] at h
      · simp at h
      · simp at h
        have := ih hmap
        simp [← h, List.length_cons]
        omega

/-- The canonicalizer always produces an absolute path. -/
theorem startsWithSlash_build (p : Str) :
    startsWithSlash (build_rooted_abs_path rootStr p) = true := by
  unfold build_rooted_abs_path
  by_cases h : (dropTrailSlashes (dropLeadSlashes p)).isEmpty
  · simp [h, rootStr, startsWithSlash]
  · simp [h, rootStr, startsWithSlash]

/-- Against the reference store, the Phase-1 retreat never reaches the
`rfind('/').unwrap()` panic when the path is absolute: a nonempty prefix of
an absolute path always contains a `'/'`, and on the empty prefix (cut 0)
the attempted node is the root, which always exists, so the store answers
`NodeExists`, never `NoNode`. -/
theorem phase1_no_panic {v : Value} {path : Str}
    (hp : startsWithSlash path = true) :
    ∀ (fuel : Nat) (s : Store) (rend : Nat),
      phase1 realClient v path fuel s rend ≠ RunOut.panic := by
  intro fuel
  induction fuel with
  | zero => intro s rend; simp [phase1]
  | succ n ih =>
    intro s rend
    simp only [phase1]
    by_cases hsub : (substring path 0 rend).isEmpty = true
    · rw [if_pos hsub]
      have hcr : realClient.create s rootStr v
          = ({ s with creates := s.creates ++ [rootStr] }, .error .nodeExists) := by
        simp [realClient, storeCreate, hasNode]
      rw [hcr]
      simp
    · have hmem : '/' ∈ substring path 0 rend := by
        cases path with
        | nil => simp [startsWithSlash] at hp
        | cons a t =>
          have ha : a = '/' := by simpa [startsWithSlash] using hp
          subst ha
          cases rend with
          | zero => simp [substring] at hsub
          | succ r => simp [substring]
      obtain ⟨i, hi⟩ := rfindChar_mem hmem
      rw [if_neg hsub]
      rcases hcr : realClient.create s (substring path 0 rend) v with ⟨s2, r⟩
      cases r with
      | ok u => simp
      | error e =>
        cases e with
        | noNode =>
          rw [hi]
          exact ih s2 i
        | nodeExists => simp
        | notEmpty => simp
        | other code => simp

/-- With fuel exceeding the starting cut, the Phase-1 loop never exhausts
its recursion budget: the cut strictly decreases at every retreat. -/
theorem phase1_no_fuelOut {σ : Type} (c : Client σ) (v : Value) (path : Str) :
    ∀ (fuel : Nat) (s : σ) (rend : Nat), rend < fuel →
      phase1 c v path fuel s rend ≠ RunOut.fuelOut := by
  intro fuel
  induction fuel with
  | zero => intro s rend h; omega
  | succ n ih =>
    intro s rend hlt
    simp only [phase1]
    split
    · simp
    · split
      · rename_i i hi
        have h1 : i < (substring path 0 rend).length := rfindChar_lt hi
        have h2 : (substring path 0 rend).length ≤ rend := by
          simp [substring, List.length_take]
        exact ih _ i (by omega)
      · simp
    · simp

/-- A successful Phase 1 returns a boundary no larger than its starting
cut. -/
theorem phase1_ok_le {σ : Type} (c : Client σ) (v : Value) (path : Str) :
    ∀ (fuel : Nat) (s : σ) (rend : Nat) (s2 : σ) (r : Nat),
      phase1 c v path fuel s rend = .out (s2, .ok r) → r ≤ rend := by
  intro fuel
  induction fuel with
  | zero => intro s rend s2 r h; simp [phase1] at h
  | succ n ih =>
    intro s rend s2 r h
    simp only [phase1] at h
    rcases hcr : c.create s
        (if (substring path 0 rend).isEmpty then rootStr else substring path 0 rend) v
      with ⟨s3, rr⟩
    rw [hcr] at h
    cases rr with
    | ok u =>
      simp at h
      omega
    | error e =>
      cases e with
      | noNode =>
        rcases hi : rfindChar (substring path 0 rend) '/' with _ | i <;> rw [hi] at h
        · simp at h
        · have h1 : i < (substring path 0 rend).length := rfindChar_lt hi
          have h2 : (substring path 0 rend).length ≤ rend := by
            simp [substring, List.length_take]
          have := ih s3 i s2 r h
          omega
      | nodeExists => simp at h
      | notEmpty => simp at h
      | other code => simp at h

/-- The Phase-2 fill-down loop never panics: it contains no `unwrap`. -/
theorem phase2loop_no_panic {σ : Type} (c : Client σ) (v : Value) (path : Str) :
    ∀ (fuel : Nat) (s : σ) (rend : Nat),
      phase2loop c v path fuel s rend ≠ RunOut.panic := by
  intro fuel
  induction fuel with
  | zero => intro s rend; simp [phase2loop]
  | succ n ih =>
    intro s rend
    simp only [phase2loop]
    split
    · split
      · simp
      · split
        · exact ih _ path.length
        · exact ih _ _
    · simp

/-- With fuel exceeding the remaining distance to the end of the path, the
Phase-2 loop never exhausts its recursion budget: the boundary strictly
advances toward the end of the path at every step. -/
theorem phase2loop_no_fuelOut {σ : Type} (c : Client σ) (v : Value) (path : Str) :
    ∀ (fuel : Nat) (s : σ) (rend : Nat), rend ≤ path.length →
      path.length - rend < fuel →
      phase2loop c v path fuel s rend ≠ RunOut.fuelOut := by
  intro fuel
  induction fuel with
  | zero => intro s rend hle h; omega
  | succ n ih =>
    intro s rend hle hfuel
    simp only [phase2loop]
    split
    · split
      · simp
      · rename_i hr
        split
        · exact ih _ path.length (le_refl _) (by omega)
        · rename_i len hf
          have hflt : len < (substring path (rend + 1) path.length).length :=
            findChar_lt hf
          have hsublen : (substring path (rend + 1) path.length).length
              = path.length - (rend + 1) := by
            simp [substring, List.take_length]
          rw [hsublen] at hflt
          exact ih _ (len + rend + 1) (by omega) (by omega)
    · simp

/-- For a boundary inside the path, Phase 2 (against any client) neither
panics nor exhausts its recursion budget. -/
theorem phase2_safe {σ : Type} (c : Client σ) (v : Value) (path : Str)
    (s' : σ) (rend : Nat) (hrle : rend ≤ path.length) :
    phase2 c v path (path.length + 2) s' rend ≠ RunOut.panic
    ∧ phase2 c v path (path.length + 2) s' rend ≠ RunOut.fuelOut := by
  simp only [phase2]
  rcases hf : findChar (substring path (rend + 1) path.length) '/' with _ | len
  · exact ⟨by simp, by simp⟩
  · have hflt : len < (substring path (rend + 1) path.length).length :=
      findChar_lt hf
    have hsublen : (substring path (rend + 1) path.length).length
        = path.length - (rend + 1) := by
      simp [substring, List.take_length]
    rw [hsublen] at hflt
    exact ⟨phase2loop_no_panic c v path (path.length + 2) s' (len + rend + 1),
      phase2loop_no_fuelOut c v path (path.length + 2) s' (len + rend + 1)
        (by omega) (by omega)⟩

/-- The body of `create_nested_node` (for an absolute path, against the
reference store) neither panics nor exhausts its recursion budgets. -/
theorem cnn_body_safe (path : Str) (hp : startsWithSlash path = true)
    (st : Store) (v : Value) :
    cnnBody realClient st path v ≠ RunOut.panic
    ∧ cnnBody realClient st path v ≠ RunOut.fuelOut := by
  unfold cnnBody
  rcases hph : phase1 realClient v path (path.length + 1) st path.length
    with _ | _ | ⟨s', r⟩
  · exact absurd hph (phase1_no_panic hp (path.length + 1) st path.length)
  · exact absurd hph
      (phase1_no_fuelOut realClient v path (path.length + 1) st path.length
        (by omega))
  · cases r with
    | error e => exact ⟨by simp, by simp⟩
    | ok rend =>
      have hrle : rend ≤ path.length :=
        phase1_ok_le realClient v path (path.length + 1) st path.length s' rend hph
      refine ⟨?_, ?_⟩
      · show phase2 realClient v path (path.length + 2) s' rend ≠ _
        exact (phase2_safe realClient v path s' rend hrle).1
      · show phase2 realClient v path (path.length + 2) s' rend ≠ _
        exact (phase2_safe realClient v path s' rend hrle).2

/-- C10: the `rfind('/').unwrap()` in Phase 1 of `create_nested_node` never
panics against the reference store: the entry rewrite makes the path
absolute, every nonempty prefix of an absolute path contains a `'/'`, and at
cut 0 the empty prefix is replaced by the root (which always exists, so its
creation never fails with "no such node").  The recursion budgets of the
embedding are also never exhausted. -/
theorem rfind_unwrap_safe (st : Store) (p0 : Str) (v : Value) :
    create_nested_node realClient st p0 v ≠ RunOut.panic
    ∧ create_nested_node realClient st p0 v ≠ RunOut.fuelOut := by
  have hp : startsWithSlash (if startsWithSlash p0 then p0
      else build_rooted_abs_path rootStr (stripSuffixSlash p0)) = true := by
    by_cases h : startsWithSlash p0 = true
    · simp [h]
    · simp [h, startsWithSlash_build]
  have heq : create_nested_node realClient st p0 v
      = cnnBody realClient st
          (if startsWithSlash p0 then p0
           else build_rooted_abs_path rootStr (stripSuffixSlash p0)) v := rfl
  rw [heq]
  exact cnn_body_safe _ hp st v

end Zk
